import Mathlib

/-!
Verification of `src/common/response.rs` from the egg-mode repository: the
rate-limit `Response` envelope and its combinators, the `RawFuture` raw
exchange state machine, and the `TwitterFuture` typed request engine.

Machine integers (`i32` rate-limit fields) are modelled as `Int`: the code
only copies and compares them, so no overflow arithmetic occurs.  External
library behaviour is modelled at its boundary: hyper's `Headers` is a list of
raw name/value pairs where `get::<H>` parses the raw value on demand
(returning `none` on a malformed value) and `has::<H>` checks raw presence of
the name; `rustc_serialize`'s `json::decode::<TwitterErrors>` and each type's
`FromJson::from_str` are opaque function parameters; `String::from_utf8` is a
concrete UTF-8 validator.  A Rust panic (`Option::unwrap` on `None`) is the
explicit `Panicked` outcome.
-/

namespace EggMode

/-- One entry of the structured API error payload (`error::TwitterErrorCode`):
an integer `code` and a string `message`. -/
structure TwitterErrorCode where
  code : Int
  message : String
deriving Repr, DecidableEq

/-- The structured API error payload (`error::TwitterErrors`): an ordered list
of code/message pairs. -/
structure TwitterErrors where
  errors : List TwitterErrorCode
deriving Repr, DecidableEq

/-- The kind carried by an `io::Error` wrapped into `error::Error`. -/
inductive IOErrorKind where
  | InvalidData
  | Other
deriving Repr, DecidableEq

/-- The subset of `error::Error` variants produced by `response.rs`:
`IOError` (from `io::Error`, carrying kind and message), `NetError` (from a
hyper / TLS transport error, message only), `RateLimit`, `TwitterError` and
`BadStatus`. -/
inductive Error where
  | IOError (kind : IOErrorKind) (msg : String)
  | NetError (msg : String)
  | RateLimit (reset : Int)
  | TwitterError (errs : TwitterErrors)
  | BadStatus (code : Nat)
deriving Repr, DecidableEq

/-- The `DecodeError` produced at classification time:
`io::Error::new(InvalidData, "stream did not contain valid UTF-8")`. -/
def utf8Error : Error := .IOError .InvalidData "stream did not contain valid UTF-8"

/-- The `ReuseError`:
`io::Error::new(Other, "response has already been processed")`. -/
def reuseError : Error := .IOError .Other "response has already been processed"

/-- `Response<T>`: a payload plus the three-field rate-limit snapshot. -/
structure Response (T : Type) where
  rate_limit : Int
  rate_limit_remaining : Int
  rate_limit_reset : Int
  response : T
deriving Repr, DecidableEq

/-- `Response::map`: rebuilds the envelope with the same three rate-limit
fields and the function applied to the payload. -/
def Response.map {T U : Type} (src : Response T) (f : T → U) : Response U :=
  { rate_limit := src.rate_limit
  , rate_limit_remaining := src.rate_limit_remaining
  , rate_limit_reset := src.rate_limit_reset
  , response := f src.response }

/-! ## Headers and the header extractor -/

/-- hyper's `Headers`: a collection of raw header name/value lines. -/
abbrev Headers := List (String × String)

/-- Raw lookup of a header line by name. -/
def Headers.getRaw (hs : Headers) (name : String) : Option String :=
  (hs.find? (fun p => p.1 == name)).map Prod.snd

/-- hyper's `Headers::has::<H>`: raw presence of the header name (no parsing
of the value). -/
def Headers.hasHeader (hs : Headers) (name : String) : Bool :=
  (Headers.getRaw hs name).isSome

/-- Rust's `i32::from_str` as used by the `header!` macro's `[i32]` format:
optional sign, one or more decimal digits, within `i32` bounds. -/
def parseI32 (s : String) : Option Int :=
  let digits : List Char → Option Nat := fun cs =>
    if cs ≠ [] ∧ cs.all Char.isDigit then
      some (cs.foldl (fun a c => a * 10 + (c.toNat - 48)) 0)
    else none
  match s.data with
  | '+' :: rest => (digits rest).bind (fun n => if n ≤ 2147483647 then some (n : Int) else none)
  | '-' :: rest => (digits rest).bind (fun n => if n ≤ 2147483648 then some (-(n : Int)) else none)
  | l => (digits l).bind (fun n => if n ≤ 2147483647 then some (n : Int) else none)

/-- hyper's `Headers::get::<H>` for the three `[i32]` rate-limit headers:
look up the raw line and parse it; a malformed value yields `none`. -/
def Headers.getI32 (hs : Headers) (name : String) : Option Int :=
  (Headers.getRaw hs name).bind parseI32

/-- Header name declared by `header! { (XRateLimitLimit, "X-Rate-Limit-Limit") => [i32] }`. -/
def XRateLimitLimit : String := "X-Rate-Limit-Limit"

/-- Header name declared by `header! { (XRateLimitRemaining, "X-Rate-Limit-Remaining") => [i32] }`. -/
def XRateLimitRemaining : String := "X-Rate-Limit-Remaining"

/-- Header name declared by `header! { (XRateLimitReset, "X-Rate-Limit-Reset") => [i32] }`. -/
def XRateLimitReset : String := "X-Rate-Limit-Reset"

/-- `rate_headers`: builds a `Response<()>` from the three rate-limit
headers, substituting `-1` for any header that is absent or malformed
(`map_or(-1, |h| h.0)`). -/
def rate_headers (resp : Headers) : Response Unit :=
  { rate_limit := (Headers.getI32 resp XRateLimitLimit).getD (-1)
  , rate_limit_remaining := (Headers.getI32 resp XRateLimitRemaining).getD (-1)
  , rate_limit_reset := (Headers.getI32 resp XRateLimitReset).getD (-1)
  , response := () }

/-! ## UTF-8 validation (`String::from_utf8`) -/

/-- Whether a byte is a UTF-8 continuation byte (`0x80..=0xBF`). -/
def isCont (b : Nat) : Prop := 0x80 ≤ b ∧ b ≤ 0xBF

instance (b : Nat) : Decidable (isCont b) := by unfold isCont; infer_instance

/-- Decode a byte sequence as UTF-8 code points; `none` on any invalid,
truncated, overlong or out-of-range sequence.  The second-byte ranges reject
overlong encodings (`0xE0`, `0xF0`), surrogates (`0xED`) and code points
above `0x10FFFF` (`0xF4`); `0xC0`/`0xC1` and `0xF5..` are never valid lead
bytes — exactly the sequences `String::from_utf8` accepts per RFC 3629. -/
def utf8Decode : List Nat → Option (List Nat)
  | [] => some []
  | b0 :: rest =>
    if b0 ≤ 0x7F then
      (utf8Decode rest).map (fun cs => b0 :: cs)
    else if 0xC2 ≤ b0 ∧ b0 ≤ 0xDF then
      match rest with
      | b1 :: rest2 =>
        if isCont b1 then
          (utf8Decode rest2).map (fun cs => ((b0 - 0xC0) * 0x40 + (b1 - 0x80)) :: cs)
        else none
      | [] => none
    else if 0xE0 ≤ b0 ∧ b0 ≤ 0xEF then
      match rest with
      | b1 :: b2 :: rest2 =>
        if (if b0 = 0xE0 then 0xA0 else 0x80) ≤ b1 ∧
           b1 ≤ (if b0 = 0xED then 0x9F else 0xBF) ∧ isCont b2 then
          (utf8Decode rest2).map
            (fun cs => ((b0 - 0xE0) * 0x1000 + (b1 - 0x80) * 0x40 + (b2 - 0x80)) :: cs)
        else none
      | _ => none
    else if 0xF0 ≤ b0 ∧ b0 ≤ 0xF4 then
      match rest with
      | b1 :: b2 :: b3 :: rest2 =>
        if (if b0 = 0xF0 then 0x90 else 0x80) ≤ b1 ∧
           b1 ≤ (if b0 = 0xF4 then 0x8F else 0xBF) ∧ isCont b2 ∧ isCont b3 then
          (utf8Decode rest2).map
            (fun cs =>
              ((b0 - 0xF0) * 0x40000 + (b1 - 0x80) * 0x1000 + (b2 - 0x80) * 0x40 + (b3 - 0x80)) :: cs)
        else none
      | _ => none
    else none

/-- `String::from_utf8` at the boundary of this model: the decoded code
points assembled into a string, or `none` if the bytes are not valid UTF-8. -/
def decodeUtf8 (bytes : List Nat) : Option String :=
  (utf8Decode bytes).map (fun cps => String.mk (cps.map Char.ofNat))

/-! ## The raw exchange engine (`RawFuture`) -/

/-- The request held by a `RawFuture` until it is sent.  Its contents are
irrelevant to the engine, which only moves it; modelled as its target URL. -/
abbrev Request := String

/-- The mutable state of `RawFuture` (minus the reactor handle): the pending
request, the in-flight response handle, captured headers and status, the
in-flight body stream handle, and the accumulated body buffer. -/
structure RawFuture where
  request : Option Request
  response : Option Unit
  resp_headers : Option Headers
  resp_status : Option Nat
  body_stream : Option Unit
  body : List Nat
deriving Repr, DecidableEq

/-- `make_raw_future`: fresh state holding the request, everything else
empty. -/
def make_raw_future (request : Request) : RawFuture :=
  { request := some request
  , response := none
  , resp_headers := none
  , resp_status := none
  , body_stream := none
  , body := [] }

/-- What the transport reports when the in-flight response handle is polled:
a transport error, not ready, or the arrival of status and headers. -/
inductive RespEvent where
  | err (msg : String)
  | notReady
  | ready (status : Nat) (headers : Headers)
deriving Repr

/-- What the transport reports when the body stream is polled: a transport
error, not ready, the next chunk, or end of stream. -/
inductive BodyEvent where
  | err (msg : String)
  | notReady
  | chunk (bytes : List Nat)
  | eof
deriving Repr

/-- The external transport's behaviour during one `poll` invocation:
the result of building the TLS connector (`none` = success), and the events
delivered by the response handle and the body stream if they are polled. -/
structure Oracle where
  connErr : Option String
  resp : RespEvent
  body : BodyEvent
deriving Repr

/-- Outcome of one `RawFuture::poll` invocation.  `Panicked` marks an
`Option::unwrap` on `None` in the Rust code. -/
inductive RawPoll where
  | NotReady
  | Ready (body : String)
  | Fail (e : Error)
  | Panicked
deriving Repr, DecidableEq

/-- One `RawFuture::poll` invocation: the reported outcome, the state after
the call, and whether this invocation performed the send
(`client.request(req)`). -/
structure RawStep where
  result : RawPoll
  state : RawFuture
  didSend : Bool
deriving Repr

/-- Final classification at stream end (`RawFuture::poll`, tail):
UTF-8-decode the buffered body; try to parse it as `TwitterErrors`; a parsed
payload containing code 88 consults the reset header (`headers()` unwraps
`resp_headers`; `has` checks raw presence, `get(...).unwrap()` parses and
unwraps); otherwise the parsed payload is a `TwitterError`; with no parsed
payload the status decides between `Ready` and `BadStatus`.
`dec` stands for `json::decode::<TwitterErrors>`. -/
def classify (dec : String → Option TwitterErrors) (body : List Nat)
    (resp_status : Option Nat) (resp_headers : Option Headers) : RawPoll :=
  match decodeUtf8 body with
  | none => .Fail utf8Error
  | some resp =>
    match dec resp with
    | some err =>
      if err.errors.any (fun e => e.code == 88) then
        match resp_headers with
        | none => .Panicked
        | some hs =>
          if Headers.hasHeader hs XRateLimitReset then
            match Headers.getI32 hs XRateLimitReset with
            | some v => .Fail (.RateLimit v)
            | none => .Panicked
          else .Fail (.TwitterError err)
      else .Fail (.TwitterError err)
    | none =>
      match resp_status with
      | none => .Panicked
      | some st => if st = 200 then .Ready resp else .Fail (.BadStatus st)

/-- Stream end: the body buffer is taken (`mem::replace(&mut self.body,
Vec::new())`) and classified. -/
def finishBody (dec : String → Option TwitterErrors) (s : RawFuture) (sent : Bool) : RawStep :=
  { result := classify dec s.body s.resp_status s.resp_headers
  , state := { s with body := [] }
  , didSend := sent }

/-- The `body_stream` stage of `RawFuture::poll`: poll the stream if one is
in flight; a chunk is appended to the buffer and the stream re-armed, still
not ready; end of stream falls through to classification. -/
def pollBody (dec : String → Option TwitterErrors) (s : RawFuture) (o : Oracle)
    (sent : Bool) : RawStep :=
  match s.body_stream with
  | some _ =>
    match o.body with
    | .err e => { result := .Fail (.NetError e), state := { s with body_stream := none }, didSend := sent }
    | .notReady => { result := .NotReady, state := s, didSend := sent }
    | .chunk c => { result := .NotReady, state := { s with body := s.body ++ c }, didSend := sent }
    | .eof => finishBody dec { s with body_stream := none } sent
  | none => finishBody dec s sent

/-- The `response` stage of `RawFuture::poll`: poll the in-flight response
handle if present; on arrival capture headers and status verbatim and open
the body stream, then fall through to the body stage. -/
def pollResponse (dec : String → Option TwitterErrors) (s : RawFuture) (o : Oracle)
    (sent : Bool) : RawStep :=
  match s.response with
  | some _ =>
    match o.resp with
    | .err e => { result := .Fail (.NetError e), state := { s with response := none }, didSend := sent }
    | .notReady => { result := .NotReady, state := s, didSend := sent }
    | .ready st hs =>
      pollBody dec
        { s with response := none, resp_headers := some hs, resp_status := some st,
                 body_stream := some () } o sent
  | none => pollBody dec s o sent

/-- `RawFuture::poll`: take the pending request if present, build the
connector (which may fail) and send the request exactly then; then drive the
response and body stages. -/
def RawFuture.poll (dec : String → Option TwitterErrors) (s : RawFuture) (o : Oracle) : RawStep :=
  match s.request with
  | some _ =>
    match o.connErr with
    | some e => { result := .Fail (.NetError e), state := { s with request := none }, didSend := false }
    | none => pollResponse dec { s with request := none, response := some () } o true
  | none => pollResponse dec s o false

/-- A sequence of `poll` invocations, one per oracle, collecting every step
(result, post-state, send flag) in order. -/
def pollRun (dec : String → Option TwitterErrors) (s : RawFuture) :
    List Oracle → List RawStep
  | [] => []
  | o :: os =>
    let st := RawFuture.poll dec s o
    st :: pollRun dec st.state os

/-- The state after a sequence of `poll` invocations. -/
def pollFold (dec : String → Option TwitterErrors) (s : RawFuture) (os : List Oracle) :
    RawFuture :=
  os.foldl (fun t o => (RawFuture.poll dec t o).state) s

/-! ## The typed request engine (`TwitterFuture`) -/

/-- The one-shot decoder (`Box<MakeResponse<T>>`): final body text and
response headers to a typed value or an error. -/
def MakeResp (T : Type) := String → Headers → Except Error T

/-- `TwitterFuture<T>`: the raw exchange plus the decoder, which is held in
an `Option` and taken on first use. -/
structure TwitterFuture (T : Type) where
  request : RawFuture
  make_resp : Option (MakeResp T)

/-- Outcome of one `TwitterFuture::poll` invocation. -/
inductive TwPoll (T : Type) where
  | NotReady
  | Ready (t : T)
  | Fail (e : Error)
  | Panicked
deriving Repr, DecidableEq

/-- `TwitterFuture::poll`: drive the raw exchange; forward its error or
not-ready as-is; on its completion take the decoder and run it on the body
text and the captured headers (`self.request.headers()` unwraps
`resp_headers`); if the decoder was already taken, fail with the reuse
error. -/
def TwitterFuture.poll {T : Type} (dec : String → Option TwitterErrors)
    (fut : TwitterFuture T) (o : Oracle) : TwPoll T × TwitterFuture T :=
  let step := RawFuture.poll dec fut.request o
  match step.result with
  | .Fail e => (.Fail e, { fut with request := step.state })
  | .NotReady => (.NotReady, { fut with request := step.state })
  | .Panicked => (.Panicked, { fut with request := step.state })
  | .Ready full_resp =>
    match fut.make_resp with
    | some mr =>
      match step.state.resp_headers with
      | none => (.Panicked, { request := step.state, make_resp := none })
      | some hs =>
        match mr full_resp hs with
        | .ok t => (.Ready t, { request := step.state, make_resp := none })
        | .error e => (.Fail e, { request := step.state, make_resp := none })
    | none => (.Fail reuseError, { fut with request := step.state })

/-- `make_future`: a fresh `TwitterFuture` over a fresh raw exchange, with
the decoder present. -/
def make_future {T : Type} (request : Request) (make_resp : MakeResp T) : TwitterFuture T :=
  { request := make_raw_future request, make_resp := some make_resp }

/-- `make_response`: parse the body with the type's `FromJson::from_str`
(the opaque `from_str` parameter) and attach the rate-limit headers via
`Response::map(rate_headers(headers), |_| out)`. -/
def make_response {T : Type} (from_str : String → Except Error T)
    (full_resp : String) (headers : Headers) : Except Error (Response T) :=
  match from_str full_resp with
  | .error e => .error e
  | .ok out => .ok (Response.map (rate_headers headers) (fun _ => out))

/-! ## Envelope iteration -/

/-- `ResponseIterRef<'a, T>`: the borrowed-element iterator; the borrow is
erased, leaving the snapshot and the remaining elements of the slice. -/
structure ResponseIterRef (T : Type) where
  rate_limit : Int
  rate_limit_remaining : Int
  rate_limit_reset : Int
  resp_iter : List T
deriving Repr, DecidableEq

/-- `Iterator::next` for `ResponseIterRef`: take the next element, wrap it
with a copy of the snapshot. -/
def ResponseIterRef.next {T : Type} (it : ResponseIterRef T) :
    Option (Response T) × ResponseIterRef T :=
  match it.resp_iter with
  | [] => (none, it)
  | x :: rest =>
    (some { rate_limit := it.rate_limit, rate_limit_remaining := it.rate_limit_remaining,
            rate_limit_reset := it.rate_limit_reset, response := x },
     { it with resp_iter := rest })

/-- `DoubleEndedIterator::next_back` for `ResponseIterRef`. -/
def ResponseIterRef.next_back {T : Type} (it : ResponseIterRef T) :
    Option (Response T) × ResponseIterRef T :=
  match it.resp_iter.getLast? with
  | none => (none, it)
  | some x =>
    (some { rate_limit := it.rate_limit, rate_limit_remaining := it.rate_limit_remaining,
            rate_limit_reset := it.rate_limit_reset, response := x },
     { it with resp_iter := it.resp_iter.dropLast })

/-- `ExactSizeIterator::len` for `ResponseIterRef`. -/
def ResponseIterRef.len {T : Type} (it : ResponseIterRef T) : Nat :=
  it.resp_iter.length

/-- `Response::iter`: the borrowed-element iterator over the collection,
carrying the envelope's snapshot. -/
def Response.iter {T : Type} (r : Response (List T)) : ResponseIterRef T :=
  { rate_limit := r.rate_limit, rate_limit_remaining := r.rate_limit_remaining,
    rate_limit_reset := r.rate_limit_reset, resp_iter := r.response }

/-- `ResponseIterMut<'a, T>`: the mutably-borrowed-element iterator. -/
structure ResponseIterMut (T : Type) where
  rate_limit : Int
  rate_limit_remaining : Int
  rate_limit_reset : Int
  resp_iter : List T
deriving Repr, DecidableEq

/-- `Iterator::next` for `ResponseIterMut`. -/
def ResponseIterMut.next {T : Type} (it : ResponseIterMut T) :
    Option (Response T) × ResponseIterMut T :=
  match it.resp_iter with
  | [] => (none, it)
  | x :: rest =>
    (some { rate_limit := it.rate_limit, rate_limit_remaining := it.rate_limit_remaining,
            rate_limit_reset := it.rate_limit_reset, response := x },
     { it with resp_iter := rest })

/-- `DoubleEndedIterator::next_back` for `ResponseIterMut`. -/
def ResponseIterMut.next_back {T : Type} (it : ResponseIterMut T) :
    Option (Response T) × ResponseIterMut T :=
  match it.resp_iter.getLast? with
  | none => (none, it)
  | some x =>
    (some { rate_limit := it.rate_limit, rate_limit_remaining := it.rate_limit_remaining,
            rate_limit_reset := it.rate_limit_reset, response := x },
     { it with resp_iter := it.resp_iter.dropLast })

/-- `ExactSizeIterator::len` for `ResponseIterMut`. -/
def ResponseIterMut.len {T : Type} (it : ResponseIterMut T) : Nat :=
  it.resp_iter.length

/-- `Response::iter_mut`. -/
def Response.iter_mut {T : Type} (r : Response (List T)) : ResponseIterMut T :=
  { rate_limit := r.rate_limit, rate_limit_remaining := r.rate_limit_remaining,
    rate_limit_reset := r.rate_limit_reset, resp_iter := r.response }

/-- `ResponseIter<T>`: the owned-element iterator. -/
structure ResponseIter (T : Type) where
  rate_limit : Int
  rate_limit_remaining : Int
  rate_limit_reset : Int
  resp_iter : List T
deriving Repr, DecidableEq

/-- `Iterator::next` for `ResponseIter`. -/
def ResponseIter.next {T : Type} (it : ResponseIter T) :
    Option (Response T) × ResponseIter T :=
  match it.resp_iter with
  | [] => (none, it)
  | x :: rest =>
    (some { rate_limit := it.rate_limit, rate_limit_remaining := it.rate_limit_remaining,
            rate_limit_reset := it.rate_limit_reset, response := x },
     { it with resp_iter := rest })

/-- `DoubleEndedIterator::next_back` for `ResponseIter`. -/
def ResponseIter.next_back {T : Type} (it : ResponseIter T) :
    Option (Response T) × ResponseIter T :=
  match it.resp_iter.getLast? with
  | none => (none, it)
  | some x =>
    (some { rate_limit := it.rate_limit, rate_limit_remaining := it.rate_limit_remaining,
            rate_limit_reset := it.rate_limit_reset, response := x },
     { it with resp_iter := it.resp_iter.dropLast })

/-- `ExactSizeIterator::len` for `ResponseIter`. -/
def ResponseIter.len {T : Type} (it : ResponseIter T) : Nat :=
  it.resp_iter.length

/-- `IntoIterator::into_iter` for an owned `Response<Vec<T>>`. -/
def Response.into_iter {T : Type} (r : Response (List T)) : ResponseIter T :=
  { rate_limit := r.rate_limit, rate_limit_remaining := r.rate_limit_remaining,
    rate_limit_reset := r.rate_limit_reset, resp_iter := r.response }

/-- Observation harness: repeatedly call `next` (bounded by the fuel, which
callers set to the iterator's length) and collect the yielded envelopes. -/
def drainRefAux {T : Type} : Nat → ResponseIterRef T → List (Response T)
  | 0, _ => []
  | n + 1, it =>
    match ResponseIterRef.next it with
    | (none, _) => []
    | (some r, it2) => r :: drainRefAux n it2

/-- All envelopes yielded by forward iteration of a `ResponseIterRef`. -/
def ResponseIterRef.drain {T : Type} (it : ResponseIterRef T) : List (Response T) :=
  drainRefAux it.len it

/-- Observation harness for backward iteration via `next_back`. -/
def drainBackRefAux {T : Type} : Nat → ResponseIterRef T → List (Response T)
  | 0, _ => []
  | n + 1, it =>
    match ResponseIterRef.next_back it with
    | (none, _) => []
    | (some r, it2) => r :: drainBackRefAux n it2

/-- All envelopes yielded by backward iteration of a `ResponseIterRef`. -/
def ResponseIterRef.drainBack {T : Type} (it : ResponseIterRef T) : List (Response T) :=
  drainBackRefAux it.len it

/-- Observation harness for `ResponseIterMut` forward iteration. -/
def drainMutAux {T : Type} : Nat → ResponseIterMut T → List (Response T)
  | 0, _ => []
  | n + 1, it =>
    match ResponseIterMut.next it with
    | (none, _) => []
    | (some r, it2) => r :: drainMutAux n it2

/-- All envelopes yielded by forward iteration of a `ResponseIterMut`. -/
def ResponseIterMut.drain {T : Type} (it : ResponseIterMut T) : List (Response T) :=
  drainMutAux it.len it

/-- Observation harness for `ResponseIterMut` backward iteration. -/
def drainBackMutAux {T : Type} : Nat → ResponseIterMut T → List (Response T)
  | 0, _ => []
  | n + 1, it =>
    match ResponseIterMut.next_back it with
    | (none, _) => []
    | (some r, it2) => r :: drainBackMutAux n it2

/-- All envelopes yielded by backward iteration of a `ResponseIterMut`. -/
def ResponseIterMut.drainBack {T : Type} (it : ResponseIterMut T) : List (Response T) :=
  drainBackMutAux it.len it

/-- Observation harness for `ResponseIter` forward iteration. -/
def drainOwnAux {T : Type} : Nat → ResponseIter T → List (Response T)
  | 0, _ => []
  | n + 1, it =>
    match ResponseIter.next it with
    | (none, _) => []
    | (some r, it2) => r :: drainOwnAux n it2

/-- All envelopes yielded by forward iteration of a `ResponseIter`. -/
def ResponseIter.drain {T : Type} (it : ResponseIter T) : List (Response T) :=
  drainOwnAux it.len it

/-- Observation harness for `ResponseIter` backward iteration. -/
def drainBackOwnAux {T : Type} : Nat → ResponseIter T → List (Response T)
  | 0, _ => []
  | n + 1, it =>
    match ResponseIter.next_back it with
    | (none, _) => []
    | (some r, it2) => r :: drainBackOwnAux n it2

/-- All envelopes yielded by backward iteration of a `ResponseIter`. -/
def ResponseIter.drainBack {T : Type} (it : ResponseIter T) : List (Response T) :=
  drainBackOwnAux it.len it

/-- The per-element envelope produced by every iterator mode: the element
wrapped with the parent envelope's snapshot. -/
def attachSnap {T : Type} (r : Response (List T)) (x : T) : Response T :=
  { rate_limit := r.rate_limit, rate_limit_remaining := r.rate_limit_remaining,
    rate_limit_reset := r.rate_limit_reset, response := x }

/-! ## Merge (`FromIterator<Response<T>> for Response<Vec<T>>`) -/

/-- The loop body of `from_iter`: possibly adopt the item's snapshot (all
three fields together), then always push the item's payload. -/
def fromIterStep {T : Type} (resp : Response (List T)) (item : Response T) :
    Response (List T) :=
  let resp2 :=
    if item.rate_limit_reset > resp.rate_limit_reset then
      { resp with rate_limit := item.rate_limit
                , rate_limit_remaining := item.rate_limit_remaining
                , rate_limit_reset := item.rate_limit_reset }
    else if item.rate_limit_reset = resp.rate_limit_reset ∧
            item.rate_limit_remaining < resp.rate_limit_remaining then
      { resp with rate_limit := item.rate_limit
                , rate_limit_remaining := item.rate_limit_remaining
                , rate_limit_reset := item.rate_limit_reset }
    else resp
  { resp2 with response := resp2.response ++ [item.response] }

/-- `from_iter`: fold the items over `fromIterStep`, starting from the
`(-1, -1, -1)` snapshot and the empty collection. -/
def from_iter {T : Type} (iter : List (Response T)) : Response (List T) :=
  iter.foldl fromIterStep
    { rate_limit := -1, rate_limit_remaining := -1, rate_limit_reset := -1, response := [] }

/-! ## Spec-side definitions

These follow the specification's words, to be compared with the definitions
translated from the source. -/

/-- Modelled from the spec, claim C1 as stated: the five-priority final
classification.  "The reset-time header is present" is read as "the header
has an integer value" (the only reading under which case 2 can carry "the
reset header's value"): (1) invalid UTF-8 is the decode error; (2) a parsed
error payload containing code 88 with an integer-valued reset header is
`RateLimit` of that value; (3) any other parsed error payload is
`TwitterError`; (4) a non-200 status is `BadStatus`; (5) otherwise the body
text succeeds. -/
def classifySpecC1 (dec : String → Option TwitterErrors) (body : List Nat)
    (status : Nat) (headers : Headers) : RawPoll :=
  match decodeUtf8 body with
  | none => .Fail utf8Error
  | some text =>
    match dec text with
    | some payload =>
      if payload.errors.any (fun e => e.code == 88) then
        match Headers.getI32 headers XRateLimitReset with
        | some v => .Fail (.RateLimit v)
        | none => .Fail (.TwitterError payload)
      else .Fail (.TwitterError payload)
    | none => if status ≠ 200 then .Fail (.BadStatus status) else .Ready text

/-- Claim C1 amended: as `classifySpecC1`, except that case 2 keys on raw
presence of the reset header, and a raw-present header whose value does not
parse as an integer makes the classification panic instead of falling
through to the generic `TwitterError`. -/
def classifySpecC1Amended (dec : String → Option TwitterErrors) (body : List Nat)
    (status : Nat) (headers : Headers) : RawPoll :=
  match decodeUtf8 body with
  | none => .Fail utf8Error
  | some text =>
    match dec text with
    | some payload =>
      if payload.errors.any (fun e => e.code == 88) then
        if Headers.hasHeader headers XRateLimitReset then
          match Headers.getI32 headers XRateLimitReset with
          | some v => .Fail (.RateLimit v)
          | none => .Panicked
        else .Fail (.TwitterError payload)
      else .Fail (.TwitterError payload)
    | none => if status ≠ 200 then .Fail (.BadStatus status) else .Ready text

/-- A rate-limit snapshot on its own: ceiling, remaining, reset. -/
structure RateSnapshot where
  ceiling : Int
  remaining : Int
  reset : Int
deriving Repr, DecidableEq

/-- The snapshot carried by an envelope. -/
def snapshotOf {T : Type} (r : Response T) : RateSnapshot :=
  { ceiling := r.rate_limit, remaining := r.rate_limit_remaining, reset := r.rate_limit_reset }

/-- Modelled from the spec, claim C2: adopt the item's snapshot if its reset
time is strictly greater than the running reset time, or the reset times are
equal and the item's remaining count is strictly smaller; otherwise keep the
running snapshot. -/
def adoptRule (running item : RateSnapshot) : RateSnapshot :=
  if item.reset > running.reset ∨ (item.reset = running.reset ∧ item.remaining < running.remaining)
  then item else running

/-- Modelled from the spec, claim C2: merge starts from the unknown snapshot
`(-1, -1, -1)`, folds the adoption rule over the items' snapshots in input
order, and collects every payload in input order. -/
def mergeSpec {T : Type} (l : List (Response T)) : Response (List T) :=
  let snap := l.foldl (fun s i => adoptRule s (snapshotOf i)) { ceiling := -1, remaining := -1, reset := -1 }
  { rate_limit := snap.ceiling, rate_limit_remaining := snap.remaining,
    rate_limit_reset := snap.reset, response := l.map (fun i => i.response) }

/-! ## Concrete inputs for witnesses and counterexamples -/

/-- A `json::decode::<TwitterErrors>` oracle that parses nothing. -/
def decNone : String → Option TwitterErrors := fun _ => none

/-- The payload `{"errors":[{"code":88,"message":"x"}]}`. -/
def payload88 : TwitterErrors := { errors := [{ code := 88, message := "x" }] }

/-- A `json::decode::<TwitterErrors>` oracle under which exactly the body
text `E88` parses, as `payload88`. -/
def dec88 : String → Option TwitterErrors :=
  fun s => if s = "E88" then some payload88 else none

/-- The ASCII bytes of the body text `E88`. -/
def body88 : List Nat := [69, 56, 56]

/-- Headers in which the reset header is raw-present but malformed. -/
def hdrsBadReset : Headers := [("X-Rate-Limit-Reset", "abc")]

/-- A decoder that returns the body text itself. -/
def mrString : MakeResp String := fun s _ => .ok s

/-- A fresh typed request engine whose decoder returns the body text. -/
def futFresh : TwitterFuture String := make_future "req" mrString

/-- An oracle delivering a 503 response with no headers and an immediately
ended body. -/
def oracle503 : Oracle := { connErr := none, resp := .ready 503 [], body := .eof }

/-- An oracle delivering a 200 response with no headers and an immediately
ended body. -/
def oracle200 : Oracle := { connErr := none, resp := .ready 200 [], body := .eof }

/-- An oracle whose transport delivers nothing (everything not ready). -/
def oracleIdle : Oracle := { connErr := none, resp := .notReady, body := .notReady }

/-- The engine state after `futFresh` was first resolved against
`oracle503` (terminal value `BadStatus 503`). -/
def fut503After : TwitterFuture String := (TwitterFuture.poll decNone futFresh oracle503).2

/-- Headers for the C4 witness: ceiling present and well-formed, remaining
present but malformed, reset absent. -/
def hdrsC4 : Headers := [("X-Rate-Limit-Limit", "13"), ("X-Rate-Limit-Remaining", "abc")]

/-- Headers for the C8 witness: all three rate-limit headers present. -/
def hdrsC8 : Headers :=
  [("X-Rate-Limit-Limit", "15"), ("X-Rate-Limit-Remaining", "7"), ("X-Rate-Limit-Reset", "1700000000")]

/-- A `FromJson::from_str` oracle for the C8 witness: the body text `42`
parses to the number 42. -/
def fromStr42 : String → Except Error Nat :=
  fun s => if s = "42" then .ok 42 else .error utf8Error

/-- The ASCII bytes of the body text `42`. -/
def bytes42 : List Nat := [52, 50]

/-- An oracle delivering a 200 response carrying the given headers and the
first body chunk. -/
def oracleHdr (hs : Headers) (bytes : List Nat) : Oracle :=
  { connErr := none, resp := .ready 200 hs, body := .chunk bytes }

/-- An oracle delivering the end of the body stream. -/
def oracleEof : Oracle := { connErr := none, resp := .notReady, body := .eof }

/-- Envelope for the C10 witness: real ceiling and remaining, sentinel
reset. -/
def envC10 : Response Nat :=
  { rate_limit := 10, rate_limit_remaining := 5, rate_limit_reset := -1, response := 42 }

/-- First oracle for the C7 and C9 witnesses: connector built, transport
idle. -/
def oW1 : Oracle := { connErr := none, resp := .notReady, body := .notReady }

/-- Second oracle for the C7 and C9 witnesses: headers arrive with a first
chunk. -/
def oW2 : Oracle := { connErr := none, resp := .ready 200 [], body := .chunk [104, 105] }

/-- Third oracle for the C7 and C9 witnesses: another chunk. -/
def oW3 : Oracle := { connErr := none, resp := .notReady, body := .chunk [33] }

/-- Oracle list for the C7 and C9 witnesses: send and wait, receive headers
plus a chunk, receive another chunk. -/
def oraclesW : List Oracle := [oW1, oW2, oW3]

/-! ## Helper lemmas -/

/-- Classification is terminal: it never reports not-ready. -/
theorem classify_ne_notReady (dec : String → Option TwitterErrors) (body : List Nat)
    (rs : Option Nat) (rh : Option Headers) :
    classify dec body rs rh ≠ RawPoll.NotReady := by
  unfold classify
  (repeat' split) <;> simp

/-- A `Ready` classification forces status 200. -/
theorem classify_ready_status {dec : String → Option TwitterErrors} {body : List Nat}
    {rs : Option Nat} {rh : Option Headers} {full : String}
    (h : classify dec body rs rh = RawPoll.Ready full) : rs = some 200 := by
  unfold classify at h
  (repeat' split at h) <;> simp_all

/-- After a `poll` that reports `Ready`, the raw state is fully drained:
no request, no in-flight handles, an empty body buffer, and status 200. -/
theorem rawPoll_ready_inv {dec : String → Option TwitterErrors} {s : RawFuture} {o : Oracle}
    {full : String} (h : (RawFuture.poll dec s o).result = RawPoll.Ready full) :
    (RawFuture.poll dec s o).state.request = none ∧
    (RawFuture.poll dec s o).state.response = none ∧
    (RawFuture.poll dec s o).state.body_stream = none ∧
    (RawFuture.poll dec s o).state.body = [] ∧
    (RawFuture.poll dec s o).state.resp_status = some 200 := by
  obtain ⟨req, resp0, rh, rs, bs, bd⟩ := s
  obtain ⟨ce, re, be⟩ := o
  cases req <;> cases ce <;> cases resp0 <;> cases re <;> cases bs <;> cases be <;>
    simp_all [RawFuture.poll, pollResponse, pollBody, finishBody] <;>
    first
      | rfl
      | (exact classify_ready_status h)
      | (exact Option.some.inj (classify_ready_status h))

/-- A `poll` on a state with no request and no in-flight handles goes
straight to classification. -/
theorem rawPoll_idle (dec : String → Option TwitterErrors) (S : RawFuture) (o2 : Oracle)
    (h1 : S.request = none) (h2 : S.response = none) (h3 : S.body_stream = none) :
    RawFuture.poll dec S o2 = finishBody dec S false := by
  obtain ⟨req, resp0, rh, rs, bs, bd⟩ := S
  simp_all [RawFuture.poll, pollResponse, pollBody]

/-- The empty byte sequence decodes as the empty string. -/
theorem decodeUtf8_nil : decodeUtf8 [] = some "" := rfl

/-- Classification of a drained 200-state (empty body, empty string not an
error payload) reports `Ready ""` and leaves the state unchanged. -/
theorem finishBody_fixpoint (dec : String → Option TwitterErrors) (S : RawFuture) (sent : Bool)
    (h4 : S.body = []) (h5 : S.resp_status = some 200) (hdec : dec "" = none) :
    finishBody dec S sent = { result := RawPoll.Ready "", state := S, didSend := sent } := by
  obtain ⟨req, resp0, rh, rs, bs, bd⟩ := S
  simp only at h4 h5
  subst h4 h5
  simp [finishBody, classify, decodeUtf8_nil, hdec]

/-- The loop body's snapshot decision agrees with the spec's adoption rule. -/
theorem fromIterStep_snapshot {T : Type} (acc : Response (List T)) (x : Response T) :
    snapshotOf (fromIterStep acc x) = adoptRule (snapshotOf acc) (snapshotOf x) := by
  by_cases h1 : x.rate_limit_reset > acc.rate_limit_reset
  · simp [fromIterStep, adoptRule, snapshotOf, h1]
  · by_cases h2 : x.rate_limit_reset = acc.rate_limit_reset ∧
        x.rate_limit_remaining < acc.rate_limit_remaining
    · simp [fromIterStep, adoptRule, snapshotOf, h1, h2]
    · simp [fromIterStep, adoptRule, snapshotOf, h1, h2]

/-- The loop body always appends the item's payload. -/
theorem fromIterStep_response {T : Type} (acc : Response (List T)) (x : Response T) :
    (fromIterStep acc x).response = acc.response ++ [x.response] := by
  by_cases h1 : x.rate_limit_reset > acc.rate_limit_reset
  · simp [fromIterStep, h1]
  · by_cases h2 : x.rate_limit_reset = acc.rate_limit_reset ∧
        x.rate_limit_remaining < acc.rate_limit_remaining
    · simp [fromIterStep, h1, h2]
    · simp [fromIterStep, h1, h2]

/-- The `from_iter` fold from any accumulator: the snapshot is the fold of
the adoption rule, and the payloads are appended in input order. -/
theorem from_iter_fold {T : Type} (l : List (Response T)) (acc : Response (List T)) :
    l.foldl fromIterStep acc =
      { rate_limit := (l.foldl (fun s i => adoptRule s (snapshotOf i)) (snapshotOf acc)).ceiling
      , rate_limit_remaining :=
          (l.foldl (fun s i => adoptRule s (snapshotOf i)) (snapshotOf acc)).remaining
      , rate_limit_reset := (l.foldl (fun s i => adoptRule s (snapshotOf i)) (snapshotOf acc)).reset
      , response := acc.response ++ l.map (fun i => i.response) } := by
  induction l generalizing acc with
  | nil => simp [snapshotOf]
  | cons x xs ih =>
    simp only [List.foldl_cons, List.map_cons]
    rw [ih (fromIterStep acc x), fromIterStep_snapshot, fromIterStep_response]
    simp

/-- C2: merge (`FromIterator` collecting `Response<T>` into
`Response<Vec<T>>`) starts from the `(-1,-1,-1)` snapshot and, for each item
in input order, adopts the item's entire snapshot exactly when its reset
time is strictly greater than the running reset time, or the reset times are
equal and its remaining count is strictly smaller; the payloads are always
collected in input order, and the empty input yields the unknown snapshot
with the empty collection — i.e. `from_iter` coincides with the
specification's merge. -/
theorem from_iter_eq_mergeSpec {T : Type} (l : List (Response T)) :
    from_iter l = mergeSpec l := by
  unfold from_iter mergeSpec
  rw [from_iter_fold]
  simp [snapshotOf]

/-- C10: merging a single envelope whose reset time is the sentinel `-1`
and whose remaining count is at least `-1` discards that envelope's whole
snapshot — the item is never adopted because its reset time does not exceed
the running `-1` — yielding the unknown snapshot with the payload alone. -/
theorem from_iter_single_stale_reset {T : Type} (e : Response T)
    (h1 : e.rate_limit_reset = -1) (h2 : -1 ≤ e.rate_limit_remaining) :
    from_iter [e] =
      { rate_limit := -1, rate_limit_remaining := -1, rate_limit_reset := -1,
        response := [e.response] } := by
  simp [from_iter, fromIterStep, h1, not_lt.mpr h2]

/-- Witness for C10: a single envelope with real ceiling 10 and remaining 5
but reset `-1` merges to the unknown snapshot. -/
theorem from_iter_single_stale_reset_witness :
    envC10.rate_limit_reset = -1 ∧
    (-1 : Int) ≤ envC10.rate_limit_remaining ∧
    from_iter [envC10] =
      { rate_limit := -1, rate_limit_remaining := -1, rate_limit_reset := -1,
        response := [42] } :=
  ⟨rfl, by decide, from_iter_single_stale_reset envC10 rfl (by decide)⟩

/-- C6: `Response::map` preserves all three rate-limit fields and replaces
the payload by the function's single application to the old payload. -/
theorem map_snapshot_id {T U : Type} (src : Response T) (f : T → U) :
    Response.map src f =
      { rate_limit := src.rate_limit
      , rate_limit_remaining := src.rate_limit_remaining
      , rate_limit_reset := src.rate_limit_reset
      , response := f src.response } := rfl

/-- C4: for each of the three rate-limit fields, `rate_headers` yields the
parsed integer when the header is present and parses, and `-1` when the
header is present but malformed or absent.  It is a total pure function. -/
theorem rate_headers_spec (hs : Headers) :
    (∀ s v, Headers.getRaw hs XRateLimitLimit = some s → parseI32 s = some v →
        (rate_headers hs).rate_limit = v) ∧
    (∀ s, Headers.getRaw hs XRateLimitLimit = some s → parseI32 s = none →
        (rate_headers hs).rate_limit = -1) ∧
    (Headers.getRaw hs XRateLimitLimit = none → (rate_headers hs).rate_limit = -1) ∧
    (∀ s v, Headers.getRaw hs XRateLimitRemaining = some s → parseI32 s = some v →
        (rate_headers hs).rate_limit_remaining = v) ∧
    (∀ s, Headers.getRaw hs XRateLimitRemaining = some s → parseI32 s = none →
        (rate_headers hs).rate_limit_remaining = -1) ∧
    (Headers.getRaw hs XRateLimitRemaining = none →
        (rate_headers hs).rate_limit_remaining = -1) ∧
    (∀ s v, Headers.getRaw hs XRateLimitReset = some s → parseI32 s = some v →
        (rate_headers hs).rate_limit_reset = v) ∧
    (∀ s, Headers.getRaw hs XRateLimitReset = some s → parseI32 s = none →
        (rate_headers hs).rate_limit_reset = -1) ∧
    (Headers.getRaw hs XRateLimitReset = none → (rate_headers hs).rate_limit_reset = -1) := by
  refine ⟨?_, ?_, ?_, ?_, ?_, ?_, ?_, ?_, ?_⟩ <;> intros <;>
    simp_all [rate_headers, Headers.getI32]

/-- Witness for C4 at concrete headers: ceiling present as `13`, remaining
present but malformed, reset absent. -/
theorem rate_headers_spec_witness :
    Headers.getRaw hdrsC4 XRateLimitLimit = some "13" ∧
    parseI32 "13" = some 13 ∧
    (rate_headers hdrsC4).rate_limit = 13 ∧
    Headers.getRaw hdrsC4 XRateLimitRemaining = some "abc" ∧
    parseI32 "abc" = none ∧
    (rate_headers hdrsC4).rate_limit_remaining = -1 ∧
    Headers.getRaw hdrsC4 XRateLimitReset = none ∧
    (rate_headers hdrsC4).rate_limit_reset = -1 :=
  ⟨rfl, rfl, (rate_headers_spec hdrsC4).1 "13" 13 rfl rfl,
   rfl, rfl, (rate_headers_spec hdrsC4).2.2.2.2.1 "abc" rfl rfl,
   rfl, (rate_headers_spec hdrsC4).2.2.2.2.2.2.2.2 rfl⟩

/-- Forward drain of a `ResponseIterRef`, given sufficient fuel. -/
theorem drainRefAux_spec {T : Type} (a b c : Int) (l : List T) (n : Nat) (hn : l.length ≤ n) :
    drainRefAux n
      { rate_limit := a, rate_limit_remaining := b, rate_limit_reset := c, resp_iter := l } =
      l.map (fun x =>
        { rate_limit := a, rate_limit_remaining := b, rate_limit_reset := c, response := x }) := by
  induction l generalizing n with
  | nil => cases n <;> simp [drainRefAux, ResponseIterRef.next]
  | cons x xs ih =>
    cases n with
    | zero => simp at hn
    | succ m => simp [drainRefAux, ResponseIterRef.next, ih m (by simp at hn; omega)]

/-- Forward drain of a `ResponseIterRef` equals the remaining elements, in
order, each wrapped with the iterator's snapshot. -/
theorem ResponseIterRef.drainRef_eq {T : Type} (it : ResponseIterRef T) :
    it.drain = it.resp_iter.map (fun x =>
      { rate_limit := it.rate_limit, rate_limit_remaining := it.rate_limit_remaining,
        rate_limit_reset := it.rate_limit_reset, response := x }) := by
  obtain ⟨a, b, c, l⟩ := it
  exact drainRefAux_spec a b c l l.length le_rfl

/-- Backward drain of a `ResponseIterRef`, given sufficient fuel. -/
theorem drainBackRefAux_spec {T : Type} (a b c : Int) (n : Nat) (l : List T)
    (hn : l.length ≤ n) :
    drainBackRefAux n
      { rate_limit := a, rate_limit_remaining := b, rate_limit_reset := c, resp_iter := l } =
      (l.map (fun x =>
        { rate_limit := a, rate_limit_remaining := b, rate_limit_reset := c,
          response := x })).reverse := by
  induction n generalizing l with
  | zero =>
    have hl : l = [] := List.eq_nil_of_length_eq_zero (Nat.le_zero.mp hn)
    subst hl
    simp [drainBackRefAux]
  | succ m ih =>
    induction l using List.reverseRecOn with
    | nil => simp [drainBackRefAux, ResponseIterRef.next_back]
    | append_singleton ys y _ =>
      have hys : ys.length ≤ m := by simp at hn; omega
      simp [drainBackRefAux, ResponseIterRef.next_back, List.getLast?_concat,
            List.dropLast_concat, ih ys hys]

/-- Backward drain of a `ResponseIterRef` is the reverse of its forward
drain. -/
theorem ResponseIterRef.drainBackRef_eq {T : Type} (it : ResponseIterRef T) :
    it.drainBack = it.drain.reverse := by
  obtain ⟨a, b, c, l⟩ := it
  rw [ResponseIterRef.drainRef_eq]
  exact drainBackRefAux_spec a b c l.length l le_rfl

/-- The reported exact size of a `ResponseIterRef` equals the number of
envelopes it has yet to yield. -/
theorem ResponseIterRef.lenRef_eq {T : Type} (it : ResponseIterRef T) :
    it.len = it.drain.length := by
  rw [ResponseIterRef.drainRef_eq]
  simp [ResponseIterRef.len]

/-- Forward drain of a `ResponseIterMut`, given sufficient fuel. -/
theorem drainMutAux_spec {T : Type} (a b c : Int) (l : List T) (n : Nat) (hn : l.length ≤ n) :
    drainMutAux n
      { rate_limit := a, rate_limit_remaining := b, rate_limit_reset := c, resp_iter := l } =
      l.map (fun x =>
        { rate_limit := a, rate_limit_remaining := b, rate_limit_reset := c, response := x }) := by
  induction l generalizing n with
  | nil => cases n <;> simp [drainMutAux, ResponseIterMut.next]
  | cons x xs ih =>
    cases n with
    | zero => simp at hn
    | succ m => simp [drainMutAux, ResponseIterMut.next, ih m (by simp at hn; omega)]

/-- Forward drain of a `ResponseIterMut` equals the remaining elements, in
order, each wrapped with the iterator's snapshot. -/
theorem ResponseIterMut.drainMut_eq {T : Type} (it : ResponseIterMut T) :
    it.drain = it.resp_iter.map (fun x =>
      { rate_limit := it.rate_limit, rate_limit_remaining := it.rate_limit_remaining,
        rate_limit_reset := it.rate_limit_reset, response := x }) := by
  obtain ⟨a, b, c, l⟩ := it
  exact drainMutAux_spec a b c l l.length le_rfl

/-- Backward drain of a `ResponseIterMut`, given sufficient fuel. -/
theorem drainBackMutAux_spec {T : Type} (a b c : Int) (n : Nat) (l : List T)
    (hn : l.length ≤ n) :
    drainBackMutAux n
      { rate_limit := a, rate_limit_remaining := b, rate_limit_reset := c, resp_iter := l } =
      (l.map (fun x =>
        { rate_limit := a, rate_limit_remaining := b, rate_limit_reset := c,
          response := x })).reverse := by
  induction n generalizing l with
  | zero =>
    have hl : l = [] := List.eq_nil_of_length_eq_zero (Nat.le_zero.mp hn)
    subst hl
    simp [drainBackMutAux]
  | succ m ih =>
    induction l using List.reverseRecOn with
    | nil => simp [drainBackMutAux, ResponseIterMut.next_back]
    | append_singleton ys y _ =>
      have hys : ys.length ≤ m := by simp at hn; omega
      simp [drainBackMutAux, ResponseIterMut.next_back, List.getLast?_concat,
            List.dropLast_concat, ih ys hys]

/-- Backward drain of a `ResponseIterMut` is the reverse of its forward
drain. -/
theorem ResponseIterMut.drainBackMut_eq {T : Type} (it : ResponseIterMut T) :
    it.drainBack = it.drain.reverse := by
  obtain ⟨a, b, c, l⟩ := it
  rw [ResponseIterMut.drainMut_eq]
  exact drainBackMutAux_spec a b c l.length l le_rfl

/-- The reported exact size of a `ResponseIterMut` equals the number of
envelopes it has yet to yield. -/
theorem ResponseIterMut.lenMut_eq {T : Type} (it : ResponseIterMut T) :
    it.len = it.drain.length := by
  rw [ResponseIterMut.drainMut_eq]
  simp [ResponseIterMut.len]

/-- Forward drain of a `ResponseIter`, given sufficient fuel. -/
theorem drainOwnAux_spec {T : Type} (a b c : Int) (l : List T) (n : Nat) (hn : l.length ≤ n) :
    drainOwnAux n
      { rate_limit := a, rate_limit_remaining := b, rate_limit_reset := c, resp_iter := l } =
      l.map (fun x =>
        { rate_limit := a, rate_limit_remaining := b, rate_limit_reset := c, response := x }) := by
  induction l generalizing n with
  | nil => cases n <;> simp [drainOwnAux, ResponseIter.next]
  | cons x xs ih =>
    cases n with
    | zero => simp at hn
    | succ m => simp [drainOwnAux, ResponseIter.next, ih m (by simp at hn; omega)]

/-- Forward drain of a `ResponseIter` equals the remaining elements, in
order, each wrapped with the iterator's snapshot. -/
theorem ResponseIter.drainOwn_eq {T : Type} (it : ResponseIter T) :
    it.drain = it.resp_iter.map (fun x =>
      { rate_limit := it.rate_limit, rate_limit_remaining := it.rate_limit_remaining,
        rate_limit_reset := it.rate_limit_reset, response := x }) := by
  obtain ⟨a, b, c, l⟩ := it
  exact drainOwnAux_spec a b c l l.length le_rfl

/-- Backward drain of a `ResponseIter`, given sufficient fuel. -/
theorem drainBackOwnAux_spec {T : Type} (a b c : Int) (n : Nat) (l : List T)
    (hn : l.length ≤ n) :
    drainBackOwnAux n
      { rate_limit := a, rate_limit_remaining := b, rate_limit_reset := c, resp_iter := l } =
      (l.map (fun x =>
        { rate_limit := a, rate_limit_remaining := b, rate_limit_reset := c,
          response := x })).reverse := by
  induction n generalizing l with
  | zero =>
    have hl : l = [] := List.eq_nil_of_length_eq_zero (Nat.le_zero.mp hn)
    subst hl
    simp [drainBackOwnAux]
  | succ m ih =>
    induction l using List.reverseRecOn with
    | nil => simp [drainBackOwnAux, ResponseIter.next_back]
    | append_singleton ys y _ =>
      have hys : ys.length ≤ m := by simp at hn; omega
      simp [drainBackOwnAux, ResponseIter.next_back, List.getLast?_concat,
            List.dropLast_concat, ih ys hys]

/-- Backward drain of a `ResponseIter` is the reverse of its forward
drain. -/
theorem ResponseIter.drainBackOwn_eq {T : Type} (it : ResponseIter T) :
    it.drainBack = it.drain.reverse := by
  obtain ⟨a, b, c, l⟩ := it
  rw [ResponseIter.drainOwn_eq]
  exact drainBackOwnAux_spec a b c l.length l le_rfl

/-- The reported exact size of a `ResponseIter` equals the number of
envelopes it has yet to yield. -/
theorem ResponseIter.lenOwn_eq {T : Type} (it : ResponseIter T) :
    it.len = it.drain.length := by
  rw [ResponseIter.drainOwn_eq]
  simp [ResponseIter.len]

/-- C5: each of the three iteration modes over an envelope of a collection
(`iter`, `iter_mut`, `into_iter`) yields exactly the collection's elements
in original order, each wrapped with the parent envelope's snapshot; reverse
traversal yields the same envelopes reversed; and at every position the
reported exact size equals the number of envelopes still to be yielded. -/
theorem iteration_modes_spec {T : Type} (r : Response (List T)) :
    (Response.iter r).drain = r.response.map (attachSnap r) ∧
    (Response.iter_mut r).drain = r.response.map (attachSnap r) ∧
    (Response.into_iter r).drain = r.response.map (attachSnap r) ∧
    (Response.iter r).drainBack = (r.response.map (attachSnap r)).reverse ∧
    (Response.iter_mut r).drainBack = (r.response.map (attachSnap r)).reverse ∧
    (Response.into_iter r).drainBack = (r.response.map (attachSnap r)).reverse ∧
    (∀ it : ResponseIterRef T, it.len = it.drain.length) ∧
    (∀ it : ResponseIterMut T, it.len = it.drain.length) ∧
    (∀ it : ResponseIter T, it.len = it.drain.length) := by
  refine ⟨?_, ?_, ?_, ?_, ?_, ?_,
    ResponseIterRef.lenRef_eq, ResponseIterMut.lenMut_eq, ResponseIter.lenOwn_eq⟩
  · rw [ResponseIterRef.drainRef_eq]; rfl
  · rw [ResponseIterMut.drainMut_eq]; rfl
  · rw [ResponseIter.drainOwn_eq]; rfl
  · rw [ResponseIterRef.drainBackRef_eq, ResponseIterRef.drainRef_eq]; rfl
  · rw [ResponseIterMut.drainBackMut_eq, ResponseIterMut.drainMut_eq]; rfl
  · rw [ResponseIter.drainBackOwn_eq, ResponseIter.drainOwn_eq]; rfl

/-- C1 (amended): for every completed raw exchange (status and headers
captured), the final classification follows the priority order (1) invalid
UTF-8 is the decode error, (2) a parsed error payload containing code 88
with the reset header raw-present is `RateLimit` of its parsed value when
the value parses, and a panic when it does not, (3) any other parsed error
payload is `TwitterError`, (4) a non-200 status is `BadStatus`, (5)
otherwise the body text is returned. -/
theorem classify_eq_specC1Amended (dec : String → Option TwitterErrors) (body : List Nat)
    (st : Nat) (hs : Headers) :
    classify dec body (some st) (some hs) = classifySpecC1Amended dec body st hs := by
  unfold classify classifySpecC1Amended
  (repeat' split) <;> first | rfl | simp_all

/-- C1 counterexample: with a body parsing as the code-88 payload, status
200, and the reset header raw-present but malformed, the code panics on
`get::<XRateLimitReset>().unwrap()` while the claimed classification
produces the generic `TwitterError` payload (the claim admits no panic
outcome in any case). -/
theorem classify_spec_counterexample :
    classify dec88 body88 (some 200) (some hdrsBadReset) = RawPoll.Panicked ∧
    classifySpecC1 dec88 body88 200 hdrsBadReset =
      RawPoll.Fail (Error.TwitterError payload88) ∧
    classify dec88 body88 (some 200) (some hdrsBadReset) ≠
      classifySpecC1 dec88 body88 200 hdrsBadReset := by
  refine ⟨?_, ?_, ?_⟩ <;> decide

/-- A not-ready resumption never discards body bytes: the new buffer is the
old buffer, possibly extended by exactly the chunk the transport just
delivered. -/
theorem rawPoll_notReady_body (dec : String → Option TwitterErrors) (s : RawFuture) (o : Oracle)
    (h : (RawFuture.poll dec s o).result = RawPoll.NotReady) :
    ∃ t, (RawFuture.poll dec s o).state.body = s.body ++ t ∧
      (t = [] ∨ o.body = BodyEvent.chunk t) := by
  obtain ⟨req, resp0, rh, rs, bs, bd⟩ := s
  obtain ⟨ce, re, be⟩ := o
  cases req <;> cases ce <;> cases resp0 <;> cases re <;> cases bs <;> cases be <;>
    simp_all [RawFuture.poll, pollResponse, pollBody, finishBody] <;>
    exact absurd h (classify_ne_notReady _ _ _ _)

/-- Monotone growth of the body buffer across any run of resumptions that
all report not-ready. -/
theorem pollFold_body_mono (dec : String → Option TwitterErrors) (s : RawFuture)
    (os : List Oracle) (h : ∀ st ∈ pollRun dec s os, st.result = RawPoll.NotReady) :
    ∃ t, (pollFold dec s os).body = s.body ++ t := by
  induction os generalizing s with
  | nil => exact ⟨[], by simp [pollFold]⟩
  | cons o os ih =>
    have hrun : pollRun dec s (o :: os) =
        RawFuture.poll dec s o :: pollRun dec (RawFuture.poll dec s o).state os := rfl
    rw [hrun] at h
    have h1 : (RawFuture.poll dec s o).result = RawPoll.NotReady :=
      h _ (List.mem_cons_self _ _)
    obtain ⟨t1, ht1, _⟩ := rawPoll_notReady_body dec s o h1
    obtain ⟨t2, ht2⟩ :=
      ih (RawFuture.poll dec s o).state (fun st hst => h st (List.mem_cons_of_mem _ hst))
    refine ⟨t1 ++ t2, ?_⟩
    have hstep : pollFold dec s (o :: os) = pollFold dec (RawFuture.poll dec s o).state os := rfl
    rw [hstep, ht2, ht1, List.append_assoc]

/-- C7: a resumption of the raw exchange that reports not-ready preserves
the body buffer, either leaving it unchanged or appending exactly the chunk
just received; consequently across every all-not-ready sequence of
resumptions the buffer grows monotonically (the old buffer is a prefix of
the new one). -/
theorem notReady_preserves_body (dec : String → Option TwitterErrors) :
    (∀ s o, (RawFuture.poll dec s o).result = RawPoll.NotReady →
      ∃ t, (RawFuture.poll dec s o).state.body = s.body ++ t ∧
        (t = [] ∨ o.body = BodyEvent.chunk t)) ∧
    (∀ s os, (∀ st ∈ pollRun dec s os, st.result = RawPoll.NotReady) →
      ∃ t, (pollFold dec s os).body = s.body ++ t) :=
  ⟨rawPoll_notReady_body dec, pollFold_body_mono dec⟩

/-- Witness for C7: a concrete three-resumption run (idle; headers plus
chunk `hi`; chunk `!`) reports not-ready throughout and only grows the
buffer. -/
theorem notReady_preserves_body_witness :
    (∀ st ∈ pollRun decNone (make_raw_future "r") oraclesW, st.result = RawPoll.NotReady) ∧
    ∃ t, (pollFold decNone (make_raw_future "r") oraclesW).body =
      (make_raw_future "r").body ++ t :=
  ⟨by decide, (notReady_preserves_body decNone).2 (make_raw_future "r") oraclesW (by decide)⟩

/-- The response/body stages leave the request slot alone and pass the send
flag through. -/
theorem pollResponse_inv (dec : String → Option TwitterErrors) (s : RawFuture) (o : Oracle)
    (sent : Bool) :
    (pollResponse dec s o sent).state.request = s.request ∧
    (pollResponse dec s o sent).didSend = sent := by
  unfold pollResponse pollBody finishBody
  (repeat' split) <;> simp

/-- After any poll invocation the request slot is empty: a present request
is taken on entry, an absent one stays absent. -/
theorem rawPoll_request_none (dec : String → Option TwitterErrors) (s : RawFuture) (o : Oracle) :
    (RawFuture.poll dec s o).state.request = none := by
  cases hreq : s.request with
  | some r =>
    cases hce : o.connErr with
    | some e => simp [RawFuture.poll, hreq, hce]
    | none =>
      have h := (pollResponse_inv dec { s with request := none, response := some () } o true).1
      simp [RawFuture.poll, hreq, hce, h]
  | none =>
    have h := (pollResponse_inv dec s o false).1
    simp [RawFuture.poll, hreq, h]

/-- A poll on a state with no pending request performs no send. -/
theorem rawPoll_noSend (dec : String → Option TwitterErrors) (s : RawFuture) (o : Oracle)
    (h : s.request = none) : (RawFuture.poll dec s o).didSend = false := by
  have h2 := (pollResponse_inv dec s o false).2
  simp [RawFuture.poll, h, h2]

/-- With no pending request, a whole run performs no sends. -/
theorem pollRun_no_send (dec : String → Option TwitterErrors) (s : RawFuture)
    (os : List Oracle) (h : s.request = none) :
    (pollRun dec s os).countP (fun st => st.didSend) = 0 := by
  induction os generalizing s with
  | nil => simp [pollRun]
  | cons o os ih =>
    have h1 := rawPoll_noSend dec s o h
    have h2 := rawPoll_request_none dec s o
    have hrun : pollRun dec s (o :: os) =
        RawFuture.poll dec s o :: pollRun dec (RawFuture.poll dec s o).state os := rfl
    rw [hrun, List.countP_cons]
    simp [h1, ih _ h2]

/-- C9: the held request is sent exactly once — any poll leaves the request
slot consumed, a run from a fresh exchange performs at most one send, and
exactly one send when the connector succeeds at the first resumption. -/
theorem request_sent_once (dec : String → Option TwitterErrors) :
    (∀ s o, (RawFuture.poll dec s o).state.request = none) ∧
    (∀ req os, (pollRun dec (make_raw_future req) os).countP (fun st => st.didSend) ≤ 1) ∧
    (∀ req o os, o.connErr = none →
      (pollRun dec (make_raw_future req) (o :: os)).countP (fun st => st.didSend) = 1) := by
  refine ⟨rawPoll_request_none dec, ?_, ?_⟩
  · intro req os
    cases os with
    | nil => simp [pollRun]
    | cons o os =>
      have h2 := rawPoll_request_none dec (make_raw_future req) o
      have h0 := pollRun_no_send dec _ os h2
      have hrun : pollRun dec (make_raw_future req) (o :: os) =
          RawFuture.poll dec (make_raw_future req) o ::
            pollRun dec (RawFuture.poll dec (make_raw_future req) o).state os := rfl
      rw [hrun, List.countP_cons, h0]
      split <;> omega
  · intro req o os hc
    have hsend : (RawFuture.poll dec (make_raw_future req) o).didSend = true := by
      simp only [RawFuture.poll, make_raw_future, hc]
      exact (pollResponse_inv dec _ o true).2
    have h2 := rawPoll_request_none dec (make_raw_future req) o
    have h0 := pollRun_no_send dec _ os h2
    have hrun : pollRun dec (make_raw_future req) (o :: os) =
        RawFuture.poll dec (make_raw_future req) o ::
          pollRun dec (RawFuture.poll dec (make_raw_future req) o).state os := rfl
    rw [hrun, List.countP_cons, h0, hsend]
    simp

/-- Witness for C9: the concrete three-resumption run sends exactly once
(its first oracle builds the connector successfully). -/
theorem request_sent_once_witness :
    oW1.connErr = none ∧
    (pollRun decNone (make_raw_future "r") (oW1 :: [oW2, oW3])).countP
      (fun st => st.didSend) = 1 :=
  ⟨rfl, (request_sent_once decNone).2.2 "r" oW1 [oW2, oW3] rfl⟩

/-- C3 (amended): once a typed request engine has produced its terminal
value by a successful resolution (the decoder was consumed), every
subsequent resolution deterministically yields the reuse error and leaves
the engine unchanged — the decoder is never re-run and no stale result is
returned.  (After a resolution that ended in an error the engine does not
guarantee the reuse error; see the counterexample.)  The hypothesis on `dec`
records that the empty body text is not a parseable error payload, which
holds of JSON decoding. -/
theorem reuse_after_success {T : Type} (dec : String → Option TwitterErrors)
    (hdec : dec "" = none) (fut : TwitterFuture T) (o : Oracle) (t : T)
    (h : (TwitterFuture.poll dec fut o).1 = TwPoll.Ready t) (o2 : Oracle) :
    TwitterFuture.poll dec (TwitterFuture.poll dec fut o).2 o2 =
      (TwPoll.Fail reuseError, (TwitterFuture.poll dec fut o).2) := by
  cases hres : (RawFuture.poll dec fut.request o).result with
  | NotReady => simp [TwitterFuture.poll, hres] at h
  | Panicked => simp [TwitterFuture.poll, hres] at h
  | Fail e => simp [TwitterFuture.poll, hres] at h
  | Ready full =>
    cases hmr : fut.make_resp with
    | none => simp [TwitterFuture.poll, hres, hmr] at h
    | some mr =>
      cases hh : (RawFuture.poll dec fut.request o).state.resp_headers with
      | none => simp [TwitterFuture.poll, hres, hmr, hh] at h
      | some hs =>
        cases hmk : mr full hs with
        | error e => simp [TwitterFuture.poll, hres, hmr, hh, hmk] at h
        | ok t2 =>
          obtain ⟨h1, h2, h3, h4, h5⟩ := rawPoll_ready_inv hres
          have hfst : (TwitterFuture.poll dec fut o).2 =
              { request := (RawFuture.poll dec fut.request o).state, make_resp := none } := by
            simp [TwitterFuture.poll, hres, hmr, hh, hmk]
          rw [hfst]
          have hidle := rawPoll_idle dec (RawFuture.poll dec fut.request o).state o2 h1 h2 h3
          have hfix := finishBody_fixpoint dec (RawFuture.poll dec fut.request o).state false
            h4 h5 hdec
          simp [TwitterFuture.poll, hidle, hfix]

/-- Witness for C3: a fresh engine resolved successfully against a 200
response with an empty body; the next resolution yields the reuse error and
the engine state is unchanged. -/
theorem reuse_after_success_witness :
    decNone "" = none ∧
    (TwitterFuture.poll decNone (make_future "r" mrString) oracle200).1 = TwPoll.Ready "" ∧
    TwitterFuture.poll decNone
        (TwitterFuture.poll decNone (make_future "r" mrString) oracle200).2 oracleIdle =
      (TwPoll.Fail reuseError,
       (TwitterFuture.poll decNone (make_future "r" mrString) oracle200).2) :=
  ⟨rfl, rfl,
   reuse_after_success decNone rfl (make_future "r" mrString) oracle200 "" rfl oracleIdle⟩

/-- C3 counterexample: a first resolution that ended in the error
`BadStatus 503` (status 503, empty unparseable body); the second resolution
repeats `BadStatus 503` — it is not the reuse error, contradicting the
claim for first resolutions that end in an error. -/
theorem reuse_after_error_counterexample :
    (TwitterFuture.poll decNone futFresh oracle503).1 = TwPoll.Fail (Error.BadStatus 503) ∧
    (TwitterFuture.poll decNone fut503After oracleIdle).1 = TwPoll.Fail (Error.BadStatus 503) ∧
    (TwitterFuture.poll decNone fut503After oracleIdle).1 ≠ TwPoll.Fail reuseError := by
  refine ⟨rfl, rfl, by decide⟩

/-- C8: a typed request against a 200 response whose body is valid UTF-8,
not an error payload, and parseable by the active decoder resolves to a
`Success` envelope whose snapshot is exactly `rate_headers` of the response
headers and whose payload is the parsed value. -/
theorem success_envelope {T : Type} (dec : String → Option TwitterErrors)
    (from_str : String → Except Error T) (req : Request) (hs : Headers)
    (bytes : List Nat) (text : String) (out : T)
    (hutf : decodeUtf8 bytes = some text) (hdec : dec text = none)
    (hfs : from_str text = Except.ok out) :
    (TwitterFuture.poll dec (make_future req (make_response from_str))
        (oracleHdr hs bytes)).1 = TwPoll.NotReady ∧
    (TwitterFuture.poll dec
        (TwitterFuture.poll dec (make_future req (make_response from_str))
          (oracleHdr hs bytes)).2 oracleEof).1 =
      TwPoll.Ready
        { rate_limit := (rate_headers hs).rate_limit
        , rate_limit_remaining := (rate_headers hs).rate_limit_remaining
        , rate_limit_reset := (rate_headers hs).rate_limit_reset
        , response := out } := by
  constructor
  · simp [TwitterFuture.poll, RawFuture.poll, pollResponse, pollBody, make_future,
          make_raw_future, oracleHdr]
  · simp [TwitterFuture.poll, RawFuture.poll, pollResponse, pollBody, finishBody,
          make_future, make_raw_future, oracleHdr, oracleEof, classify, hutf, hdec, hfs,
          make_response, Response.map]

/-- Witness for C8: body bytes `42`, all three rate-limit headers present,
decoder parsing `42` to the number 42. -/
theorem success_envelope_witness :
    decodeUtf8 bytes42 = some "42" ∧
    decNone "42" = none ∧
    fromStr42 "42" = Except.ok 42 ∧
    (TwitterFuture.poll decNone
        (TwitterFuture.poll decNone (make_future "r" (make_response fromStr42))
          (oracleHdr hdrsC8 bytes42)).2 oracleEof).1 =
      TwPoll.Ready
        { rate_limit := (rate_headers hdrsC8).rate_limit
        , rate_limit_remaining := (rate_headers hdrsC8).rate_limit_remaining
        , rate_limit_reset := (rate_headers hdrsC8).rate_limit_reset
        , response := (42 : Nat) } :=
  ⟨by decide, rfl, rfl,
   (success_envelope decNone fromStr42 "r" hdrsC8 bytes42 "42" 42 (by decide) rfl rfl).2⟩

end EggMode
